import Mathlib

/-!
Verification of the easyscience corelib constraint engine (`Constraints.py`)
and the array quantity type (`Objects/variable/descriptor_array.py`) against
its natural-language specification.  The Python code is shallowly embedded:
numeric payloads become rationals, numpy arrays become lists of rationals
with an explicit shape, fallible code returns `Except`, and in-place
mutation becomes explicit state passing.
-/

/-- Python exception classes that the embedded code can raise. -/
inductive PyErr where
  | typeError
  | valueError
  | unitError
  | zeroDivisionError
  | attributeError
  | assertionError
  | nameError
  | keyError
  deriving DecidableEq, Repr

/-- Comparison operator tokens accepted by `NumericConstraint` / `SelfConstraint`
(`==`, `<`, `>`, `<=`, `>=`), evaluated by asteval as `value1 {op} value2`. -/
inductive CmpOp where
  | eq
  | lt
  | gt
  | le
  | ge
  deriving DecidableEq, Repr

/-- Evaluation of a comparison token on two numbers, as the Python expression
`value1 op value2` evaluates. -/
def CmpOp.apply : CmpOp → ℚ → ℚ → Bool
  | .eq, a, b => a == b
  | .lt, a, b => a < b
  | .gt, a, b => b < a
  | .le, a, b => a ≤ b
  | .ge, a, b => b ≤ a

/-- A Python value that is either a plain number or a numpy array
(a list, which `NumericConstraint._parse_operator` converts with `np.array`,
arrives here already as the array case). -/
inductive PyNum where
  | num (q : ℚ)
  | arr (l : List ℚ)
  deriving DecidableEq, Repr

/-- Semantics of Python `not logic` when `logic` is a numpy boolean array:
`not` calls `bool()` on the array, which succeeds only for a single-element
array (returning that element) and raises ValueError ("the truth value of an
array with more than one element is ambiguous") otherwise. -/
def npNot (logic : List Bool) : Except PyErr Bool :=
  match logic with
  | [b] => .ok (!b)
  | _ => .error .valueError

/-- Semantics of the numpy assignment `value[b] = v2` where `b` is a Python
bool used as an index: `value[True] = v2` writes every element,
`value[False] = v2` writes nothing. -/
def npBoolAssign (value : List ℚ) (b : Bool) (v2 : ℚ) : List ℚ :=
  if b then value.map (fun _ => v2) else value

/-- Embedding of `NumericConstraint._parse_operator` (Constraints.py lines
210-247): reads the dependent's raw value `value1`, evaluates
`value1 operator value2` with the fixed limit `value2`; for a scalar the
result is `value1` when the predicate holds and `value2` otherwise; for an
array `logic` is a numpy boolean array and the code executes
`value[not logic] = value2`, whose `not` raises for arrays of more than one
element. -/
def NumericConstraint.parseOperator (operator : CmpOp) (value2 : ℚ) (value1 : PyNum) :
    Except PyErr PyNum :=
  match value1 with
  | .num v =>
    if operator.apply v value2 then .ok (.num v) else .ok (.num value2)
  | .arr l =>
    let logic := l.map (fun v => operator.apply v value2)
    match npNot logic with
    | .error e => .error e
    | .ok b => .ok (.arr (npBoolAssign l b value2))

/-- Modelled from the spec: the elementwise correction the specification
describes for array-valued dependents of a `NumericConstraint` — "only the
elements failing the predicate are replaced by `v2`", passing elements are
left unchanged.  This is the intended behaviour the code's
`value[not logic] = value2` slip fails to implement. -/
def specElementwiseCorrection (operator : CmpOp) (value2 : ℚ) (l : List ℚ) : List ℚ :=
  l.map (fun v => if operator.apply v value2 then v else value2)

/-- A constraint dependent, as the minimal quantity interface the constraint
engine manipulates: a value and an `enabled` flag. -/
structure Quantity where
  value : ℚ
  enabled : Bool
  deriving DecidableEq, Repr

/-- One write the constraint engine performs on its dependent quantity,
recorded so the exact order of enable-toggling and value setting is visible. -/
inductive DepEvent where
  | setEnabled (b : Bool)
  | setValue (v : ℚ)
  deriving DecidableEq, Repr

/-- Replay of a list of dependent-quantity writes on a quantity. -/
def applyEvents (q : Quantity) (evs : List DepEvent) : Quantity :=
  evs.foldl
    (fun q e =>
      match e with
      | .setEnabled b => { q with enabled := b }
      | .setValue v => { q with value := v }) q

/-- Embedding of `ConstraintBase.__call__` (Constraints.py lines 103-135).
`cEnabled` is the constraint's `_enabled` flag at call time, `noSet` the
`no_set` keyword, `dep` the resolved dependent quantity and `parsed` the
result the variant-specific `_parse_operator` would compute (the parse only
happens when the constraint is enabled; the argument is unused otherwise).
Returns the Python return value and the ordered writes made to the
dependent: when disabled nothing happens and None is returned; when enabled
and not in evaluate-only mode the dependent is force-enabled if currently
disabled, its value is set, and its previous enabled state is restored. -/
def constraintCall (cEnabled : Bool) (noSet : Bool) (dep : Quantity) (parsed : ℚ) :
    Option ℚ × List DepEvent :=
  if !cEnabled then (none, [])
  else
    let value := parsed
    if noSet then (some value, [])
    else
      if dep.enabled then (some value, [.setValue value])
      else (some value, [.setEnabled true, .setValue value, .setEnabled false])

/-- Result of running the `ConstraintBase.enabled` setter: the constraint's
new `_enabled` flag, the dependent quantity afterwards, and how many times
`self()` (i.e. `__call__`) was invoked during the setter. -/
structure EnabledSetResult where
  constraintEnabled : Bool
  dep : Quantity
  callCount : ℕ
  deriving DecidableEq, Repr

/-- Embedding of the `ConstraintBase.enabled` setter (Constraints.py lines
82-101).  If the new value equals the current one, nothing happens.  On
enabling, the dependent's `enabled` flag is set to False and `self()` is
invoked once — note `self._enabled` is still the old value at that point, so
the inner call's own disabled-check applies — and only then is `_enabled`
updated.  On disabling, the dependent's `enabled` flag is set to True. -/
def enabledSetter (cEnabled : Bool) (dep : Quantity) (newValue : Bool) (parsed : ℚ) :
    EnabledSetResult :=
  if cEnabled == newValue then ⟨cEnabled, dep, 0⟩
  else if newValue then
    let dep1 : Quantity := { dep with enabled := false }
    let r := constraintCall cEnabled false dep1 parsed
    let dep2 := applyEvents dep1 r.2
    ⟨true, dep2, 1⟩
  else
    ⟨false, { dep with enabled := true }, 0⟩

/-- Operator tokens `MultiObjConstraint` interleaves between independent
values: the spec's examples are `+`, `-`, and coefficient forms such as
`-2*`; each token therefore either adds or subtracts the next value,
optionally scaled by a coefficient bound by Python precedence. -/
inductive MOp where
  | plus
  | minus
  | plusTimes (c : ℚ)
  | minusTimes (c : ℚ)
  deriving DecidableEq, Repr

/-- Effect of one interleaved operator token on the running value of a
left-to-right Python additive expression. -/
def MOp.step (acc : ℚ) : MOp → ℚ → ℚ
  | .plus, v => acc + v
  | .minus, v => acc - v
  | .plusTimes c, v => acc + c * v
  | .minusTimes c, v => acc - c * v

/-- One token of the expression string `MultiObjConstraint._parse_operator`
builds: either an independent value (the `p<id>` symbol) or an operator. -/
inductive Tok where
  | var (v : ℚ)
  | op (o : MOp)
  deriving DecidableEq, Repr

/-- Embedding of the string-building loop of
`MultiObjConstraint._parse_operator` (Constraints.py lines 431-448): for each
independent, append its symbol, then append `operator[idx]` when
`idx < len(operator)`; operators beyond the number of independents are never
appended. -/
def buildTokens : List ℚ → List MOp → List Tok
  | [], _ => []
  | v :: vs, [] => Tok.var v :: buildTokens vs []
  | v :: vs, o :: os => Tok.var v :: Tok.op o :: buildTokens vs os

/-- Evaluation of the tail of a left-to-right additive Python expression:
after a value, only an operator followed by a value may follow; a trailing
operator or two juxtaposed values is a SyntaxError (`none`). -/
def evalChain : ℚ → List Tok → Option ℚ
  | acc, [] => some acc
  | acc, Tok.op o :: Tok.var v :: rest => evalChain (MOp.step acc o v) rest
  | _, _ => none

/-- Evaluation of the full expression token list: it must start with a value;
an empty or operator-first expression is a SyntaxError (`none`). -/
def evalTokens : List Tok → Option ℚ
  | Tok.var v :: rest => evalChain v rest
  | _ => none

/-- Embedding of `MultiObjConstraint._parse_operator` (Constraints.py lines
431-448): evaluates `final_value = value - (in_str)` where `in_str` is the
interleaved expression.  When the expression is malformed, asteval records
the SyntaxError and `final_value` is never bound, so the subsequent
`symtable` lookup raises (modelled as a KeyError). -/
def MultiObjConstraint.parseOperator (value : ℚ) (vals : List ℚ) (ops : List MOp) :
    Except PyErr ℚ :=
  match evalTokens (buildTokens vals ops) with
  | some e => .ok (value - e)
  | none => .error .keyError

/-- Left-to-right value of the interleaved expression starting from a first
value `acc`, consuming one operator and one further value per step. -/
def chainValue : ℚ → List MOp → List ℚ → ℚ
  | acc, o :: os, v :: vs => chainValue (MOp.step acc o v) os vs
  | acc, _, _ => acc

/-- The independent-object argument of `ConstraintBase.__init__`: absent, a
single object, or a list of objects; objects are represented by their
`unique_name`. -/
inductive IndependentArg where
  | none
  | single (id : String)
  | list (ids : List String)
  deriving DecidableEq, Repr

/-- State of a freshly constructed constraint: the stored ids, the initial
`_enabled` and `external` flags, the writes performed on the dependent
object during construction, and whether a re-enabling finalizer was
attached. -/
structure ConstraintInitResult where
  dependentObjIds : String
  independentObjIds : IndependentArg
  enabled : Bool
  external : Bool
  depEvents : List DepEvent
  hasFinalizer : Bool
  deriving DecidableEq, Repr

/-- Embedding of `ConstraintBase.__init__` (Constraints.py lines 38-71).
`depIsParameter` mirrors the `dependent_obj.__class__.__name__ == 'Parameter'`
test and `depEnabled` the dependent's `enabled` flag.  With an independent
argument present, a dependent id equal to (or member of) the independent
id(s) raises AttributeError; then a dependent Parameter must be enabled
(else AssertionError) and is force-disabled with a finalizer attached. -/
def ConstraintBase.init (depId : String) (indep : IndependentArg)
    (depIsParameter : Bool) (depEnabled : Bool) : Except PyErr ConstraintInitResult :=
  match indep with
  | .none => .ok ⟨depId, .none, true, false, [], false⟩
  | .single i =>
    if depId = i then .error .attributeError
    else if depIsParameter then
      if !depEnabled then .error .assertionError
      else .ok ⟨depId, .single i, true, false, [.setEnabled false], true⟩
    else .ok ⟨depId, .single i, true, false, [], false⟩
  | .list is =>
    if depId ∈ is then .error .attributeError
    else if depIsParameter then
      if !depEnabled then .error .assertionError
      else .ok ⟨depId, .list is, true, false, [.setEnabled false], true⟩
    else .ok ⟨depId, .list is, true, false, [], false⟩

/-- A physical unit of the scipp unit algebra, restricted to the base
dimensions the repository exercises: integer exponents for length, time and
mass, plus a rational scale factor relative to the SI base unit (so "mm" is
length 1 with scale 1/1000). -/
structure SUnit where
  length : ℤ
  time : ℤ
  mass : ℤ
  scale : ℚ
  deriving DecidableEq, Repr

/-- Resolution of a unit string by `sc.Unit`, modelled over the finite family
of unit tokens the repository's code and tests use; an unresolvable string
is `none`, where scipp raises UnitError. -/
def resolveUnit : String → Option SUnit
  | "m" => some ⟨1, 0, 0, 1⟩
  | "cm" => some ⟨1, 0, 0, 1/100⟩
  | "mm" => some ⟨1, 0, 0, 1/1000⟩
  | "km" => some ⟨1, 0, 0, 1000⟩
  | "s" => some ⟨0, 1, 0, 1⟩
  | "ms" => some ⟨0, 1, 0, 1/1000⟩
  | "kg" => some ⟨0, 0, 1, 1⟩
  | "g" => some ⟨0, 0, 1, 1/1000⟩
  | "dimensionless" => some ⟨0, 0, 0, 1⟩
  | "" => some ⟨0, 0, 0, 1⟩
  | _ => none

/-- Dimensional compatibility: `Variable.to` succeeds exactly when the two
units agree on every dimension exponent (scale may differ). -/
def SUnit.dimsMatch (a b : SUnit) : Bool :=
  a.length == b.length && a.time == b.time && a.mass == b.mass

/-- Unit algebra for division: exponents subtract, scales divide. -/
def SUnit.div (a b : SUnit) : SUnit :=
  ⟨a.length - b.length, a.time - b.time, a.mass - b.mass, a.scale / b.scale⟩

/-- A dense numpy array: its shape tuple and its elements in row-major
order. -/
structure NdArr where
  shape : List ℕ
  data : List ℚ
  deriving DecidableEq, Repr

/-- The scipp payload of a `DescriptorArray`: values, unit, and optional
variances. -/
structure DArr where
  values : NdArr
  unit : SUnit
  variances : Option NdArr
  deriving DecidableEq, Repr

/-- Semantics of `Variable.to(unit=target)` on a DescriptorArray payload:
`none` when the dimensions are incompatible (scipp raises UnitError),
otherwise the values scale by the factor between the units and the variances
by its square. -/
def DArr.convertTo (d : DArr) (target : SUnit) : Option DArr :=
  if d.unit.dimsMatch target then
    let f := d.unit.scale / target.scale
    some ⟨⟨d.values.shape, d.values.data.map (· * f)⟩, target,
      d.variances.map (fun v => ⟨v.shape, v.data.map (· * f^2)⟩)⟩
  else none

/-- A `DescriptorArray` together with the global undo stack it pushes to:
each stack entry is the (old array, new array, label) triple of one
`PropertyStack` command. -/
structure DArrState where
  arr : DArr
  undo : List (DArr × DArr × String)
  deriving DecidableEq, Repr

/-- Whether `convert_unit` can succeed: the target string resolves to a unit
of the same dimensions as the current one. -/
def unitConvertible (current : SUnit) (target : String) : Bool :=
  match resolveUnit target with
  | some nu => current.dimsMatch nu
  | Option.none => false

/-- Embedding of `DescriptorArray.convert_unit` (descriptor_array.py lines
235-267).  The target string is resolved by `sc.Unit` (UnitError when
unresolvable); the converted array is computed by `Variable.to` (UnitError
when dimensionally incompatible); only when both succeed is the (old, new)
pair pushed onto the global undo stack and the array then replaced.  The
function is total: on failure it returns the untouched state alongside the
raised error, faithful to the source where both raise points precede the
push and the mutation. -/
def DescriptorArray.convertUnit (s : DArrState) (unitStr : String) :
    DArrState × Option PyErr :=
  match resolveUnit unitStr with
  | Option.none => (s, some .unitError)
  | some newUnit =>
    match s.arr.convertTo newUnit with
    | Option.none => (s, some .unitError)
    | some newArr => (⟨newArr, (s.arr, newArr, unitStr) :: s.undo⟩, none)

/-- Modelled from the spec: the scalar quantity type `DescriptorNumber`,
whose source file `descriptor_number.py` is not under src (only its uses in
`descriptor_array.py` are).  Per the spec it carries a magnitude, a unit and
an optional variance. -/
structure DNum where
  value : ℚ
  unit : SUnit
  variance : Option ℚ
  deriving DecidableEq, Repr

/-- Modelled from the spec: `DescriptorNumber.convert_unit` on a copy, as
`_smooth_operator` uses it — `none` on incompatible dimensions (UnitError),
otherwise the magnitude scales by the unit factor and the variance by its
square. -/
def DNum.convertUnit (d : DNum) (target : SUnit) : Option DNum :=
  if d.unit.dimsMatch target then
    let f := d.unit.scale / target.scale
    some ⟨d.value * f, target, d.variance.map (fun v => v * f^2)⟩
  else none

/-- The operand types `__truediv__` accepts: a plain number, a (nested) list,
a DescriptorNumber, or a DescriptorArray.  Any other type makes the Python
method return NotImplemented, which is outside this model. -/
inductive ArrOperand where
  | num (q : ℚ)
  | list (l : NdArr)
  | dnum (d : DNum)
  | darr (d : DArr)
  deriving DecidableEq, Repr

/-- The divisor-zero test of `__truediv__` (lines 528-537): the raw payload
extracted from the operand (`other`, `np.array(other)`, `other.value`, or
`other.full_value.values`) compared elementwise against exact zero with
`np.any`. -/
def containsZero : ArrOperand → Bool
  | .num q => q == 0
  | .list l => l.data.any (fun q => q == 0)
  | .dnum d => d.value == 0
  | .darr d => d.values.data.any (fun q => q == 0)

/-- Three-list pointwise combination, used for first-order variance
propagation of a quotient. -/
def zip3With (f : ℚ → ℚ → ℚ → ℚ) : List ℚ → List ℚ → List ℚ → List ℚ
  | a :: as, b :: bs, c :: cs => f a b c :: zip3With f as bs cs
  | _, _, _ => []

/-- First-order variance of the elementwise quotient `c = a / k` of an array
by a broadcast scalar carrying an optional variance:
sigma_c^2 = sigma_a^2 / k^2 + a^2 sigma_k^2 / k^4. -/
def divVarNum (aData : List ℚ) (aVar : Option (List ℚ)) (k : ℚ) (kVar : Option ℚ) :
    Option (List ℚ) :=
  match aVar, kVar with
  | Option.none, Option.none => none
  | some va, Option.none => some (va.map (fun v => v / k^2))
  | Option.none, some w => some (aData.map (fun a => a^2 * w / k^4))
  | some va, some w =>
    some (List.zipWith (fun a v => v / k^2 + a^2 * w / k^4) aData va)

/-- First-order variance of the elementwise quotient `c = a / b` of two
arrays: sigma_c^2 = sigma_a^2 / b^2 + a^2 sigma_b^2 / b^4. -/
def divVarArr (aData : List ℚ) (aVar : Option (List ℚ)) (bData : List ℚ)
    (bVar : Option (List ℚ)) : Option (List ℚ) :=
  match aVar, bVar with
  | Option.none, Option.none => none
  | some va, Option.none => some (List.zipWith (fun v b => v / b^2) va bData)
  | Option.none, some vb => some (zip3With (fun a b w => a^2 * w / b^4) aData bData vb)
  | some va, some vb =>
    some (List.zipWith (· + ·)
      (List.zipWith (fun v b => v / b^2) va bData)
      (zip3With (fun a b w => a^2 * w / b^4) aData bData vb))

/-- Embedding of `DescriptorArray._smooth_operator` (lines 319-391)
instantiated at `op.truediv` with `units_must_match=False`, composed with
scipp's division semantics: values divide elementwise, units divide, and
variances follow first-order error propagation.  A DescriptorNumber or
DescriptorArray operand is first copied and converted to self's unit; with
`units_must_match=False` a failed conversion is swallowed and the
unconverted copy used.  A DescriptorNumber operand is broadcast over the
whole array (the correlation warning this raises is not modelled — no claim
depends on it).  A list operand must match self's shape (ValueError); a
DescriptorArray operand of mismatched shape likewise fails (scipp rejects
the zip).  The result is repackaged through `DescriptorArray.from_scipp`;
the constructor's re-normalization of numeric unit prefixes is the identity
over this unit model, whose scales are stored canonically. -/
def smoothOperatorDiv (a : DArr) (other : ArrOperand) : Except PyErr DArr :=
  match other with
  | .num q =>
    .ok ⟨⟨a.values.shape, a.values.data.map (fun x => x / q)⟩, a.unit,
      a.variances.map (fun v => ⟨v.shape, v.data.map (fun x => x / q^2)⟩)⟩
  | .list l =>
    if l.shape ≠ a.values.shape then .error .valueError
    else
      .ok ⟨⟨a.values.shape, List.zipWith (· / ·) a.values.data l.data⟩, a.unit,
        a.variances.map (fun v =>
          ⟨v.shape, List.zipWith (fun x b => x / b^2) v.data l.data⟩)⟩
  | .dnum d =>
    let dc := (d.convertUnit a.unit).getD d
    .ok ⟨⟨a.values.shape, a.values.data.map (fun x => x / dc.value)⟩,
      a.unit.div dc.unit,
      (divVarNum a.values.data (a.variances.map NdArr.data) dc.value dc.variance).map
        (fun v => ⟨a.values.shape, v⟩)⟩
  | .darr b =>
    let bc := (b.convertTo a.unit).getD b
    if bc.values.shape ≠ a.values.shape then .error .valueError
    else
      .ok ⟨⟨a.values.shape, List.zipWith (· / ·) a.values.data bc.values.data⟩,
        a.unit.div bc.unit,
        (divVarArr a.values.data (a.variances.map NdArr.data) bc.values.data
          (bc.variances.map NdArr.data)).map (fun v => ⟨a.values.shape, v⟩)⟩

/-- Embedding of the reversed smooth operation (`_rsmooth_operator`, lines
393-424, at `op.truediv` with `units_must_match=False`) for number, list and
DescriptorNumber operands: the operand divided by self, elementwise.  For a
DescriptorArray operand `_rsmooth_operator` evaluates `operator(other, self)`
which re-enters `__truediv__` on the operand — that case is dispatched in
`DescriptorArray.rtruediv` below and kept here only for totality. -/
def rsmoothDivCore (a : DArr) (other : ArrOperand) : Except PyErr DArr :=
  match other with
  | .num q =>
    .ok ⟨⟨a.values.shape, a.values.data.map (fun x => q / x)⟩,
      (SUnit.div ⟨0, 0, 0, 1⟩ a.unit),
      (divVarArr (a.values.data.map (fun _ => q)) none a.values.data
        (a.variances.map NdArr.data)).map (fun v => ⟨a.values.shape, v⟩)⟩
  | .list l =>
    if l.shape ≠ a.values.shape then .error .valueError
    else
      .ok ⟨⟨a.values.shape, List.zipWith (· / ·) l.data a.values.data⟩,
        (SUnit.div ⟨0, 0, 0, 1⟩ a.unit),
        (divVarArr l.data none a.values.data
          (a.variances.map NdArr.data)).map (fun v => ⟨a.values.shape, v⟩)⟩
  | .dnum d =>
    let dc := (d.convertUnit a.unit).getD d
    .ok ⟨⟨a.values.shape, a.values.data.map (fun x => dc.value / x)⟩,
      dc.unit.div a.unit,
      (divVarArr (a.values.data.map (fun _ => dc.value))
        (dc.variance.map (fun w => a.values.data.map (fun _ => w)))
        a.values.data (a.variances.map NdArr.data)).map
        (fun v => ⟨a.values.shape, v⟩)⟩
  | .darr b => smoothOperatorDiv b (.darr a)

/-- Embedding of `DescriptorArray.__truediv__` (lines 517-539): the divisor's
raw payload is checked for an exact zero and ZeroDivisionError is raised
before the division is attempted; only otherwise is the division delegated
to `_smooth_operator`. -/
def DescriptorArray.truediv (a : DArr) (other : ArrOperand) : Except PyErr DArr :=
  if containsZero other then .error .zeroDivisionError
  else smoothOperatorDiv a other

/-- Embedding of `DescriptorArray.__rtruediv__` (lines 541-555), where self
is the divisor of `other / self`: self's values are checked for an exact
zero and ZeroDivisionError raised before anything else.  Then, through
`_rsmooth_operator`: a DescriptorArray operand re-enters `__truediv__`; for
a DescriptorNumber operand self is first converted to the operand's unit
when compatible (a failure is tolerated since `units_must_match` is False,
and the later conversion of self back does not affect the returned result);
number and list operands go straight to the reversed smooth operation. -/
def DescriptorArray.rtruediv (a : DArr) (other : ArrOperand) : Except PyErr DArr :=
  if a.values.data.any (fun q => q == 0) then .error .zeroDivisionError
  else
    match other with
    | .darr b => DescriptorArray.truediv b (.darr a)
    | .dnum d => rsmoothDivCore ((a.convertTo d.unit).getD a) (.dnum d)
    | o => rsmoothDivCore a o

/-- The operand types of `__matmul__`: a DescriptorArray, a list, or anything
else (for which the method returns NotImplemented and Python raises
TypeError for the `@` expression). -/
inductive MatmulArg where
  | list (l : NdArr)
  | darr (d : DArr)
  | other
  deriving DecidableEq, Repr

/-- Embedding of `DescriptorArray.__matmul__` (lines 616-637).  After the
type test, the operand's first dimension is compared with self's last
dimension (ValueError on mismatch).  The remaining body then evaluates
`operator(self._array, other)` — but no name `operator` is in scope there
(the operator module was imported as `op`), so a NameError is raised; for a
DescriptorArray operand the conversion `sc.array(values=other)` on the
preceding line may raise its own conversion error first, and the method body
contains no return statement, so no path produces a result object. -/
def DescriptorArray.matmul (a : DArr) (arg : MatmulArg) : Except PyErr DArr :=
  match arg with
  | .other => .error .typeError
  | .list l =>
    if l.shape.headD 0 ≠ a.values.shape.getLastD 0 then .error .valueError
    else .error .nameError
  | .darr b =>
    if b.values.shape.headD 0 ≠ a.values.shape.getLastD 0 then .error .valueError
    else .error .nameError

/-- An argument handed to the value/variance setters: a Python list, a numpy
array, or anything else (rejected by the isinstance test). -/
inductive PyInput where
  | list (a : NdArr)
  | ndarray (a : NdArr)
  | other
  deriving DecidableEq, Repr

/-- Embedding of the `DescriptorArray.value` setter (lines 130-147): the
input must be a list or numpy array (TypeError otherwise), lists are
converted to arrays, and the new shape must equal the current values' shape
(ValueError otherwise); only then is the payload stored.  Unit and variances
are untouched. -/
def DescriptorArray.setValue (s : DArr) (v : PyInput) : Except PyErr DArr :=
  match v with
  | .other => .error .typeError
  | .list a | .ndarray a =>
    if a.shape ≠ s.values.shape then .error .valueError
    else .ok { s with values := a }

/-- Embedding of the `DescriptorArray.variance` setter (lines 176-196):
`None` clears the variances; otherwise the input must be a list or numpy
array (TypeError), match the shape of the current values (ValueError) and
contain only non-negative elements (ValueError) before being stored. -/
def DescriptorArray.setVariance (s : DArr) (v : Option PyInput) : Except PyErr DArr :=
  match v with
  | Option.none => .ok { s with variances := none }
  | some .other => .error .typeError
  | some (.list a) | some (.ndarray a) =>
    if a.shape ≠ s.values.shape then .error .valueError
    else if a.data.any (fun q => decide (q < 0)) then .error .valueError
    else .ok { s with variances := some a }

/-- One call of a mutating setter on a DescriptorArray. -/
inductive SetterOp where
  | setValue (v : PyInput)
  | setVariance (v : Option PyInput)
  deriving DecidableEq, Repr

/-- Execution of one setter call by a caller that catches the raised error:
an erroring setter leaves the object untouched. -/
def applySetter (s : DArr) (o : SetterOp) : DArr :=
  match o with
  | .setValue v =>
    match DescriptorArray.setValue s v with
    | .ok s' => s'
    | .error _ => s
  | .setVariance v =>
    match DescriptorArray.setVariance s v with
    | .ok s' => s'
    | .error _ => s

/-- Execution of a sequence of setter calls, left to right. -/
def applySetters (s : DArr) : List SetterOp → DArr
  | [] => s
  | o :: os => applySetters (applySetter s o) os

/-- The well-formedness the setters are claimed to preserve: the variances,
when present, have exactly the shape of the values and are elementwise
non-negative. -/
def varianceInvariant (s : DArr) : Bool :=
  match s.variances with
  | Option.none => true
  | some a => a.shape == s.values.shape && a.data.all (fun q => decide (0 ≤ q))

/-- C1.  For a NumericConstraint, the scalar case follows the spec: the
corrected value is `v1` when `v1 op v2` holds and `v2` otherwise.  But for an
array-valued dependent the code is NOT elementwise: `value[not logic]`
applies Python `not` to the whole boolean array, which raises ValueError for
any array of more than one element, so the invocation fails instead of
clamping only the failing elements.  The spec-described elementwise result at
the failing input `[1/2, 2]` with `<= 1` would be `[1/2, 1]`. -/
theorem numericConstraint_array_not_elementwise :
    (∀ v1 v2 : ℚ, NumericConstraint.parseOperator .le v2 (.num v1) =
      .ok (.num (if v1 ≤ v2 then v1 else v2)))
    ∧ NumericConstraint.parseOperator .le 1 (.arr [1/2, 2]) = .error .valueError
    ∧ specElementwiseCorrection .le 1 [1/2, 2] = [1/2, 1] := by
  have h1 : ((1 : ℚ)/2 ≤ 1) := by norm_num
  have h2 : ¬((2 : ℚ) ≤ 1) := by norm_num
  refine ⟨fun v1 v2 => ?_, ?_, ?_⟩
  · by_cases h : v1 ≤ v2 <;>
      simp [NumericConstraint.parseOperator, CmpOp.apply, h]
  · simp [NumericConstraint.parseOperator, CmpOp.apply, npNot, h1, h2]
  · simp [specElementwiseCorrection, CmpOp.apply, h1, h2]
    norm_num

/-- C2.  Calling a constraint while disabled is a no-op returning None with
no write to the dependent; when enabled with `no_set = False`, the write
trace force-enables the dependent first exactly when it is disabled, sets
the value, and restores the previous enabled state, so the final dependent
holds the parsed value with its original enabled flag. -/
theorem constraintCall_disabled_noop_and_write_protocol
    (noSet : Bool) (dep : Quantity) (parsed : ℚ) :
    constraintCall false noSet dep parsed = (none, [])
    ∧ (constraintCall true false dep parsed).2 =
      (if dep.enabled then [.setValue parsed]
       else [.setEnabled true, .setValue parsed, .setEnabled false])
    ∧ applyEvents dep (constraintCall true false dep parsed).2 =
      { value := parsed, enabled := dep.enabled } := by
  refine ⟨rfl, ?_, ?_⟩ <;>
    cases h : dep.enabled <;>
      simp [constraintCall, applyEvents, h]

/-- C3.  The constraint `enabled` setter is an idempotent no-op when the new
value equals the current one; setting False → True sets the dependent's
enabled flag to False and invokes the constraint exactly once (leaving the
dependent's value untouched, since the inner call still sees the old
disabled `_enabled`); setting True → False sets the dependent's enabled flag
to True without altering its value. -/
theorem enabledSetter_protocol (b : Bool) (dep : Quantity) (parsed : ℚ) :
    enabledSetter b dep b parsed = ⟨b, dep, 0⟩
    ∧ enabledSetter false dep true parsed = ⟨true, ⟨dep.value, false⟩, 1⟩
    ∧ enabledSetter true dep false parsed = ⟨false, ⟨dep.value, true⟩, 0⟩ := by
  refine ⟨by simp [enabledSetter], ?_, by simp [enabledSetter]⟩
  simp [enabledSetter, constraintCall, applyEvents]

/-- C4.  For every well-formed operator/independent alignment (one operator
fewer than independents), `MultiObjConstraint` invocation computes
`value - (v0 op0 v1 op1 ... )`, the operators positionally interleaved into
a left-to-right expression over the independents' raw values. -/
theorem multiObjConstraint_interleaved (value v0 : ℚ) (vs : List ℚ) (ops : List MOp)
    (h : ops.length = vs.length) :
    MultiObjConstraint.parseOperator value (v0 :: vs) ops =
      .ok (value - chainValue v0 ops vs) := by
  suffices hgen : ∀ (ops : List MOp) (vs : List ℚ), ops.length = vs.length →
      ∀ acc : ℚ, evalTokens (buildTokens (acc :: vs) ops) = some (chainValue acc ops vs) by
    unfold MultiObjConstraint.parseOperator
    rw [hgen ops vs h v0]
  intro ops
  induction ops with
  | nil =>
    intro vs hlen acc
    cases vs with
    | nil => rfl
    | cons w ws => simp at hlen
  | cons o os ih =>
    intro vs hlen acc
    cases vs with
    | nil => simp at hlen
    | cons w ws =>
      have hlen' : os.length = ws.length := by simpa using hlen
      have := ih ws hlen' (MOp.step acc o w)
      -- Peel one (value, operator, value) step off the token list.
      cases ws with
      | nil =>
        cases os with
        | nil => simp [buildTokens, evalTokens, evalChain, chainValue]
        | cons o' os' => simp at hlen'
      | cons w' ws' =>
        cases os with
        | nil => simp at hlen'
        | cons o' os' =>
          simp only [buildTokens, evalTokens, evalChain, chainValue] at this ⊢
          exact this

/-- C4 witness: independents `[b, c] = [3, 5]`, operators `['-2*']`,
value `0` yield `0 - (3 - 2*5) = 7`. -/
theorem multiObjConstraint_interleaved_witness :
    ([MOp.minusTimes 2].length = [(5 : ℚ)].length)
    ∧ MultiObjConstraint.parseOperator 0 [3, 5] [MOp.minusTimes 2] = .ok 7 := by
  refine ⟨rfl, ?_⟩
  have h := multiObjConstraint_interleaved 0 3 [5] [MOp.minusTimes 2] rfl
  rw [h]
  norm_num [chainValue, MOp.step]

/-- C5.  Constructing any constraint whose dependent unique_name equals the
single independent's unique_name, or appears among the list of independent
unique_names, raises AttributeError — for both argument forms and regardless
of whether the dependent is a Parameter or enabled. -/
theorem constraint_self_reference_raises (depId : String) (indep : IndependentArg)
    (p e : Bool)
    (h : indep = .single depId ∨ ∃ ids, indep = .list ids ∧ depId ∈ ids) :
    ConstraintBase.init depId indep p e = .error .attributeError := by
  rcases h with h | ⟨ids, h, hmem⟩
  · subst h
    simp [ConstraintBase.init]
  · subst h
    simp [ConstraintBase.init, hmem]

/-- C5 witness: dependent "a" among independents ["a", "b"] raises, even for
an enabled Parameter dependent. -/
theorem constraint_self_reference_raises_witness :
    ConstraintBase.init "a" (.list ["a", "b"]) true true = .error .attributeError :=
  constraint_self_reference_raises "a" (.list ["a", "b"]) true true
    (Or.inr ⟨["a", "b"], rfl, by simp⟩)

/-- C9.  Constructing a constraint that has independent objects and whose
dependent is a Parameter with `enabled = False` (and which passes the
self-reference check) raises AssertionError instead of attaching the
constraint. -/
theorem constraint_disabled_parameter_raises (depId : String) (indep : IndependentArg)
    (h : (∃ i, indep = .single i ∧ depId ≠ i)
      ∨ (∃ ids, indep = .list ids ∧ depId ∉ ids)) :
    ConstraintBase.init depId indep true false = .error .assertionError := by
  rcases h with ⟨i, h, hne⟩ | ⟨ids, h, hmem⟩
  · subst h
    simp [ConstraintBase.init, hne]
  · subst h
    simp [ConstraintBase.init, hmem]

/-- C9 witness: a disabled Parameter dependent "a" with independent "b"
raises AssertionError at construction. -/
theorem constraint_disabled_parameter_raises_witness :
    ConstraintBase.init "a" (.single "b") true false = .error .assertionError :=
  constraint_disabled_parameter_raises "a" (.single "b")
    (Or.inl ⟨"b", rfl, by simp⟩)

/-- C6.  For every DescriptorArray division, in both operand orders, a
divisor that is or contains an exact zero raises ZeroDivisionError before
any division is performed and no result object is produced: `a / b` checks
the raw payload of the divisor operand `b` for each of the four accepted
operand types, and the reflected `b / a` checks the values of the
DescriptorArray divisor `a`. -/
theorem division_by_zero_raises (a : DArr) (other : ArrOperand) :
    (containsZero other = true →
      DescriptorArray.truediv a other = .error .zeroDivisionError)
    ∧ (a.values.data.any (fun q => q == 0) = true →
      DescriptorArray.rtruediv a other = .error .zeroDivisionError) := by
  constructor
  · intro h
    simp [DescriptorArray.truediv, h]
  · intro h
    simp [DescriptorArray.rtruediv, h]

/-- C6 witness: a metre array containing a zero divided by the number zero,
and the number two divided by that array, both raise ZeroDivisionError. -/
theorem division_by_zero_raises_witness :
    containsZero (.num 0) = true
    ∧ DescriptorArray.truediv ⟨⟨[1, 2], [1, 0]⟩, ⟨1, 0, 0, 1⟩, none⟩ (.num 0) =
      .error .zeroDivisionError
    ∧ DescriptorArray.rtruediv ⟨⟨[1, 2], [1, 0]⟩, ⟨1, 0, 0, 1⟩, none⟩ (.num 2) =
      .error .zeroDivisionError := by
  have hz : containsZero (.num 0) = true := by simp [containsZero]
  have ha : (DArr.mk ⟨[1, 2], [1, 0]⟩ ⟨1, 0, 0, 1⟩ none).values.data.any
      (fun q => q == 0) = true := by simp
  exact ⟨hz, (division_by_zero_raises _ _).1 hz, (division_by_zero_raises _ _).2 ha⟩

/-- C7.  `convert_unit` is atomic: when the target unit string does not
resolve or is dimensionally incompatible it raises UnitError, leaving value,
unit and variance unchanged and pushing nothing onto the undo stack; on
success the (old, new) array pair is handed to the undo stack and the array
replaced by the converted one. -/
theorem convertUnit_atomic (s : DArrState) (u : String) :
    (unitConvertible s.arr.unit u = false →
      DescriptorArray.convertUnit s u = (s, some .unitError))
    ∧ (∀ nu, resolveUnit u = some nu → s.arr.unit.dimsMatch nu = true →
      ∃ newArr, s.arr.convertTo nu = some newArr
        ∧ DescriptorArray.convertUnit s u =
          (⟨newArr, (s.arr, newArr, u) :: s.undo⟩, none)) := by
  constructor
  · intro h
    cases hr : resolveUnit u with
    | none => simp [DescriptorArray.convertUnit, hr]
    | some nu =>
      simp only [unitConvertible, hr] at h
      simp [DescriptorArray.convertUnit, hr, DArr.convertTo, h]
  · intro nu hr hd
    have hc : s.arr.convertTo nu =
        some ⟨⟨s.arr.values.shape,
            s.arr.values.data.map (· * (s.arr.unit.scale / nu.scale))⟩, nu,
          s.arr.variances.map (fun v =>
            ⟨v.shape, v.data.map (· * (s.arr.unit.scale / nu.scale)^2)⟩)⟩ := by
      simp [DArr.convertTo, hd]
    exact ⟨_, hc, by simp [DescriptorArray.convertUnit, hr, hc]⟩

/-- C7 witness: converting a metre array to "s" — resolvable but
dimensionally incompatible — returns UnitError with the state, including the
undo stack, untouched. -/
theorem convertUnit_atomic_witness :
    unitConvertible ⟨1, 0, 0, 1⟩ "s" = false
    ∧ DescriptorArray.convertUnit ⟨⟨⟨[1, 1], [1]⟩, ⟨1, 0, 0, 1⟩, none⟩, []⟩ "s" =
      (⟨⟨⟨[1, 1], [1]⟩, ⟨1, 0, 0, 1⟩, none⟩, []⟩, some .unitError) := by
  have h : unitConvertible ⟨1, 0, 0, 1⟩ "s" = false := rfl
  exact ⟨h, (convertUnit_atomic _ _).1 h⟩

/-- C8.  The spec lists matrix multiply among the supported array operations
and `__matmul__`'s own docstring promises a new DescriptorArray, but the
method never produces one: every path raises (TypeError for an unsupported
operand, ValueError for a shape mismatch, and otherwise the NameError from
the unbound name `operator`), and the body has no return statement.  At the
shape-compatible 2x2 failing input the call raises NameError instead of
returning the matrix product. -/
theorem matmul_never_produces_result (a : DArr) (b : MatmulArg) :
    (∃ e, DescriptorArray.matmul a b = .error e)
    ∧ DescriptorArray.matmul ⟨⟨[2, 2], [1, 2, 3, 4]⟩, ⟨0, 0, 0, 1⟩, none⟩
      (.list ⟨[2, 2], [1, 0, 0, 1]⟩) = .error .nameError := by
  constructor
  · cases b with
    | other => exact ⟨.typeError, rfl⟩
    | list l =>
      by_cases h : l.shape.headD 0 = a.values.shape.getLastD 0
      · exact ⟨.nameError, by
          simp only [DescriptorArray.matmul]
          rw [if_neg (fun hc => hc h)]⟩
      · exact ⟨.valueError, by
          simp only [DescriptorArray.matmul]
          rw [if_pos h]⟩
    | darr d =>
      by_cases h : d.values.shape.headD 0 = a.values.shape.getLastD 0
      · exact ⟨.nameError, by
          simp only [DescriptorArray.matmul]
          rw [if_neg (fun hc => hc h)]⟩
      · exact ⟨.valueError, by
          simp only [DescriptorArray.matmul]
          rw [if_pos h]⟩
  · rfl

/-- Helper for C10: a value-setter call with an array payload — accepted or
rejected — cannot change the shape of the values and keeps the variance
well-formedness. -/
theorem setValue_preserves (s : DArr) (a : NdArr) (h : varianceInvariant s = true) :
    (applySetter s (.setValue (.list a))).values.shape = s.values.shape
    ∧ varianceInvariant (applySetter s (.setValue (.list a))) = true := by
  by_cases hsh : a.shape = s.values.shape
  · have hok : DescriptorArray.setValue s (.list a) = .ok { s with values := a } := by
      simp [DescriptorArray.setValue, hsh]
    refine ⟨by simp [applySetter, hok, hsh], ?_⟩
    cases hv : s.variances with
    | none => simp [applySetter, hok, varianceInvariant, hv]
    | some w =>
      simp only [varianceInvariant, hv] at h
      simp only [applySetter, hok, varianceInvariant, hv, hsh]
      exact h
  · have herr : DescriptorArray.setValue s (.list a) = .error .valueError := by
      simp [DescriptorArray.setValue, hsh]
    exact ⟨by simp [applySetter, herr], by simp [applySetter, herr, h]⟩

/-- Helper for C10: the variance setter treats a numpy-array input exactly
like a list input. -/
theorem setVariance_ndarray_eq (s : DArr) (a : NdArr) :
    DescriptorArray.setVariance s (some (.ndarray a)) =
      DescriptorArray.setVariance s (some (.list a)) := rfl

/-- Helper for C10: a variance-setter call with an array payload — accepted
or rejected — cannot change the shape of the values and keeps the variance
well-formedness. -/
theorem setVarianceArr_preserves (s : DArr) (a : NdArr)
    (h : varianceInvariant s = true) :
    (applySetter s (.setVariance (some (.list a)))).values.shape = s.values.shape
    ∧ varianceInvariant (applySetter s (.setVariance (some (.list a)))) = true := by
  by_cases hsh : a.shape = s.values.shape
  · by_cases hneg : a.data.any (fun q => decide (q < 0)) = true
    · have herr : DescriptorArray.setVariance s (some (.list a)) =
          .error .valueError := by
        simp only [DescriptorArray.setVariance]
        rw [if_neg (fun hc => hc hsh), if_pos hneg]
      exact ⟨by simp [applySetter, herr], by simp [applySetter, herr, h]⟩
    · have hok : DescriptorArray.setVariance s (some (.list a)) =
          .ok { s with variances := some a } := by
        simp only [DescriptorArray.setVariance]
        rw [if_neg (fun hc => hc hsh), if_neg hneg]
      have hall : a.data.all (fun q => decide (0 ≤ q)) = true := by
        simp only [List.all_eq_true, decide_eq_true_eq]
        intro q hq
        by_contra hlt
        exact hneg (by
          simp only [List.any_eq_true, decide_eq_true_eq]
          exact ⟨q, hq, lt_of_not_le hlt⟩)
      refine ⟨by simp [applySetter, hok], ?_⟩
      simp [applySetter, hok, varianceInvariant, hsh, hall]
  · have herr : DescriptorArray.setVariance s (some (.list a)) =
        .error .valueError := by
      simp only [DescriptorArray.setVariance]
      rw [if_pos hsh]
    exact ⟨by simp [applySetter, herr], by simp [applySetter, herr, h]⟩

/-- Helper for C10: a variance-setter call — clearing, accepted or rejected —
cannot change the shape of the values and keeps the variance
well-formedness. -/
theorem setVariance_preserves (s : DArr) (v : Option PyInput)
    (h : varianceInvariant s = true) :
    (applySetter s (.setVariance v)).values.shape = s.values.shape
    ∧ varianceInvariant (applySetter s (.setVariance v)) = true := by
  match v with
  | Option.none =>
    exact ⟨rfl, by simp [applySetter, DescriptorArray.setVariance, varianceInvariant]⟩
  | some .other =>
    exact ⟨rfl, h⟩
  | some (.list a) =>
    exact setVarianceArr_preserves s a h
  | some (.ndarray a) =>
    have e : applySetter s (.setVariance (some (.ndarray a))) =
        applySetter s (.setVariance (some (.list a))) := by
      simp only [applySetter, setVariance_ndarray_eq]
    rw [e]
    exact setVarianceArr_preserves s a h

/-- Helper for C10: one setter call of either kind preserves the shape of the
values and the variance well-formedness. -/
theorem applySetter_preserves (s : DArr) (o : SetterOp)
    (h : varianceInvariant s = true) :
    (applySetter s o).values.shape = s.values.shape
    ∧ varianceInvariant (applySetter s o) = true := by
  match o with
  | .setValue .other => exact ⟨rfl, h⟩
  | .setValue (.list a) => exact setValue_preserves s a h
  | .setValue (.ndarray a) => exact setValue_preserves s a h
  | .setVariance v => exact setVariance_preserves s v h

/-- Helper for C10: any sequence of setter calls preserves the shape of the
values and the variance well-formedness. -/
theorem applySetters_preserves (ops : List SetterOp) :
    ∀ s : DArr, varianceInvariant s = true →
      (applySetters s ops).values.shape = s.values.shape
      ∧ varianceInvariant (applySetters s ops) = true := by
  induction ops with
  | nil => exact fun s hs => ⟨rfl, hs⟩
  | cons o os ih =>
    intro s hs
    have hstep := applySetter_preserves s o hs
    have hrest := ih (applySetter s o) hstep.2
    exact ⟨hrest.1.trans hstep.1, hrest.2⟩

/-- C10.  The array shape is an invariant of the mutating setters: the value
setter raises TypeError on a non list/array input and ValueError on a shape
change, the variance setter raises ValueError on a shape mismatch or a
negative element, and consequently no sequence of value/variance setter
calls can change the array's shape or make a stored variance element
negative. -/
theorem setters_shape_variance_invariant (s : DArr) (ops : List SetterOp)
    (hs : varianceInvariant s = true) :
    ((applySetters s ops).values.shape = s.values.shape
      ∧ varianceInvariant (applySetters s ops) = true)
    ∧ DescriptorArray.setValue s .other = .error .typeError
    ∧ (∀ a : NdArr, a.shape ≠ s.values.shape →
      DescriptorArray.setValue s (.list a) = .error .valueError)
    ∧ (∀ a : NdArr, a.shape ≠ s.values.shape →
      DescriptorArray.setVariance s (some (.list a)) = .error .valueError)
    ∧ (∀ a : NdArr, a.shape = s.values.shape →
      a.data.any (fun q => decide (q < 0)) = true →
      DescriptorArray.setVariance s (some (.list a)) = .error .valueError) := by
  refine ⟨applySetters_preserves ops s hs, rfl, ?_, ?_, ?_⟩
  · intro a ha
    simp [DescriptorArray.setValue, ha]
  · intro a ha
    simp [DescriptorArray.setVariance, ha]
  · intro a ha hneg
    simp [DescriptorArray.setVariance, ha, hneg]

/-- C10 witness: starting from a well-formed array of shape [2], a rejected
shape-changing value write followed by an accepted variance write leaves the
shape at [2] and the invariant intact, and the rejected write indeed errors
with ValueError. -/
theorem setters_shape_variance_invariant_witness :
    varianceInvariant ⟨⟨[2], [1, 2]⟩, ⟨0, 0, 0, 1⟩, none⟩ = true
    ∧ (applySetters ⟨⟨[2], [1, 2]⟩, ⟨0, 0, 0, 1⟩, none⟩
        [.setValue (.list ⟨[3], [7, 8, 9]⟩),
         .setVariance (some (.list ⟨[2], [1, 1]⟩))]).values.shape = [2]
    ∧ varianceInvariant (applySetters ⟨⟨[2], [1, 2]⟩, ⟨0, 0, 0, 1⟩, none⟩
        [.setValue (.list ⟨[3], [7, 8, 9]⟩),
         .setVariance (some (.list ⟨[2], [1, 1]⟩))]) = true
    ∧ DescriptorArray.setValue ⟨⟨[2], [1, 2]⟩, ⟨0, 0, 0, 1⟩, none⟩
        (.list ⟨[3], [7, 8, 9]⟩) = .error .valueError := by
  have h := setters_shape_variance_invariant ⟨⟨[2], [1, 2]⟩, ⟨0, 0, 0, 1⟩, none⟩
    [.setValue (.list ⟨[3], [7, 8, 9]⟩), .setVariance (some (.list ⟨[2], [1, 1]⟩))] rfl
  exact ⟨rfl, h.1.1, h.1.2, h.2.2.1 ⟨[3], [7, 8, 9]⟩ (by decide)⟩
